import Mathlib

/-
Shallow embedding of `src/server.py` (class MessengerServer).

The server state consists of the three mutable structures owned by the
`MessengerServer` instance: `clients` (a Python dict from websocket to the
client-info record, modelled as an insertion-ordered association list),
`messages` (the history buffer, a Python list), and `typing_users`
(a Python set of strings, modelled as a `Finset String`).

External non-determinism (uuid4 values, `datetime.now()` readings, the
websocket handles handed over by the transport) enters the handlers as
explicit string/`Conn` parameters.

Sends are modelled as an event trace: `Event.send` is a direct
`websocket.send`, `Event.broadcast` records one `broadcast_message` pass
together with the list of connections the payload is delivered to.  In this
main model every send succeeds (the failure-handling pass of
`broadcast_message` is modelled separately below as `broadcast_message_failing`,
parameterised by the set of dead connections).
-/

namespace Messenger

/-- Websocket connection handles: opaque, unique; modelled as naturals. -/
abbrev Conn := Nat

/-- Python `str.strip()`: surrounding whitespace removed.  Implemented over the
character list so that it evaluates by kernel reduction. -/
def pyStrip (s : String) : String :=
  ⟨((s.data.dropWhile Char.isWhitespace).reverse.dropWhile Char.isWhitespace).reverse⟩

/-- Python slicing `s[:n]`. -/
def pyTake (s : String) (n : Nat) : String :=
  ⟨s.data.take n⟩

/-- One stored chat message (`message_data` built in `handle_chat_message`);
the `type` field is constant and carried by the `Payload.message` wrapper. -/
structure ChatMessage where
  id : String
  username : String
  text : String
  timestamp : String
  deriving DecidableEq

/-- The `client_info` record built in `register_client` (without the
`websocket` field, which is the association-list key). -/
structure ClientInfo where
  id : String
  username : String
  joined_at : String
  deriving DecidableEq

/-- The three process-wide mutable structures of `MessengerServer.__init__`. -/
structure ServerState where
  clients : List (Conn × ClientInfo)
  messages : List ChatMessage
  typing_users : Finset String
  deriving DecidableEq

/-- `MessengerServer()`: empty registry, empty history, empty typing set. -/
def initialState : ServerState :=
  { clients := [], messages := [], typing_users := ∅ }

/-- Outbound payload shapes produced by the server.  The typing set is carried
as the set itself (`list(self.typing_users)` serialises it in arbitrary
order). -/
inductive Payload where
  | welcome (clientId username : String) (messages : List ChatMessage)
  | user_joined (id username timestamp : String)
  | user_left (id username timestamp : String)
  | username_changed (id oldUsername newUsername timestamp : String)
  | username_updated (username : String)
  | message (m : ChatMessage)
  | typing_update (typingUsers : Finset String)
  deriving DecidableEq

/-- Observable delivery events: a direct `websocket.send`, or one
`broadcast_message` call recording the connections it delivers to. -/
inductive Event where
  | send (c : Conn) (p : Payload)
  | broadcast (recipients : List Conn) (p : Payload)
  deriving DecidableEq

/-- Python dict lookup `self.clients.get(websocket)` on the association list. -/
def findClient : List (Conn × ClientInfo) → Conn → Option ClientInfo
  | [], _ => none
  | pr :: rest, k => if pr.1 = k then some pr.2 else findClient rest k

/-- Python dict assignment `self.clients[websocket] = client_info`: replace in
place when the key is present, append otherwise. -/
def dictSet (l : List (Conn × ClientInfo)) (k : Conn) (v : ClientInfo) :
    List (Conn × ClientInfo) :=
  if l.any (fun pr => pr.1 == k) then
    l.map (fun pr => if pr.1 = k then (k, v) else pr)
  else l ++ [(k, v)]

/-- Python `del self.clients[websocket]`. -/
def dictErase (l : List (Conn × ClientInfo)) (k : Conn) :
    List (Conn × ClientInfo) :=
  l.filter (fun pr => decide (pr.1 ≠ k))

/-- Mutation `client_info['username'] = u` of the record stored under `ws`. -/
def clientsUpdate (l : List (Conn × ClientInfo)) (ws : Conn) (u : String) :
    List (Conn × ClientInfo) :=
  l.map (fun pr => if pr.1 = ws then (pr.1, { pr.2 with username := u }) else pr)

/-- Whether `websocket == exclude` skips connection `c` in the broadcast loop. -/
def excludedB (exclude : Option Conn) (c : Conn) : Bool :=
  match exclude with
  | none => false
  | some e => c == e

/-- The connections a broadcast pass delivers to: every registered connection
except the excluded one, in registry iteration order. -/
def recipientsOf (st : ServerState) (exclude : Option Conn) : List Conn :=
  (st.clients.map Prod.fst).filter (fun c => !excludedB exclude c)

/-- `broadcast_message` in the reliable-send model: returns only the event
trace, since with no failures the state is unchanged.  The empty-registry
guard (`if not self.clients: return`) is kept. -/
def broadcast_message (st : ServerState) (p : Payload) (exclude : Option Conn) :
    List Event :=
  if st.clients.isEmpty then []
  else [Event.broadcast (recipientsOf st exclude) p]

/-- `broadcast_typing_update`: broadcasts the current typing set. -/
def broadcast_typing_update (st : ServerState) (exclude : Option Conn) :
    List Event :=
  broadcast_message st (.typing_update st.typing_users) exclude

/-- Lines 145-148 of `handle_chat_message`: append, then `pop(0)` when the
buffer holds more than 100 entries. -/
def storeMessage (msgs : List ChatMessage) (m : ChatMessage) : List ChatMessage :=
  let l := msgs ++ [m]
  if 100 < l.length then l.drop 1 else l

/-- `register_client` up to the message-receive loop: mint identity, store the
record, send the welcome payload directly, broadcast `user_joined` to the
others.  `clientId` stands for the fresh `uuid4`, `uJoin` for the join
message's own uuid, `tsJoin`/`tsNow` for the two clock readings. -/
def register_client (st : ServerState) (ws : Conn)
    (clientId uJoin tsJoin tsNow : String) : ServerState × List Event :=
  let username := "User_" ++ pyTake clientId 6
  let info : ClientInfo := { id := clientId, username := username, joined_at := tsJoin }
  let st1 := { st with clients := dictSet st.clients ws info }
  (st1, Event.send ws (.welcome clientId username st1.messages) ::
        broadcast_message st1 (.user_joined uJoin username tsNow) (some ws))

/-- `unregister_client`: no-op when `websocket not in self.clients`; otherwise
discard the display name from the typing set, broadcast `user_left` excluding
the leaver, broadcast the typing update excluding the leaver, and only then
delete the registry entry. -/
def unregister_client (st : ServerState) (ws : Conn) (u ts : String) :
    ServerState × List Event :=
  match findClient st.clients ws with
  | none => (st, [])
  | some info =>
    let st1 := { st with typing_users := st.typing_users.erase info.username }
    let ev1 := broadcast_message st1 (.user_left u info.username ts) (some ws)
    let ev2 := broadcast_typing_update st1 (some ws)
    ({ st1 with clients := dictErase st1.clients ws }, ev1 ++ ev2)

/-- `handle_chat_message`: trim the text and drop silently when empty; then the
inline-rename block (update the stored record and broadcast `username_changed`
to everyone when the trimmed `username` field is non-empty and differs from the
current name); then build the message with the current (possibly just-updated)
display name, store it, and broadcast it to everyone.  The `none` branch
mirrors the registration guard in `handle_message` (and the `KeyError` being
swallowed by its broad `except`). -/
def handle_chat_message (st : ServerState) (ws : Conn)
    (textField usernameField : Option String) (uChange uMsg ts : String) :
    ServerState × List Event :=
  match findClient st.clients ws with
  | none => (st, [])
  | some info =>
    let text := pyStrip (textField.getD "")
    if text = "" then (st, [])
    else
      let newUsername := pyStrip (usernameField.getD "")
      let st1 := if newUsername ≠ "" ∧ newUsername ≠ info.username then
          { st with clients := clientsUpdate st.clients ws newUsername }
        else st
      let ev1 := if newUsername ≠ "" ∧ newUsername ≠ info.username then
          broadcast_message st1
            (.username_changed uChange info.username newUsername ts) none
        else []
      let author := if newUsername ≠ "" ∧ newUsername ≠ info.username then
          newUsername
        else info.username
      let m : ChatMessage := { id := uMsg, username := author, text := text, timestamp := ts }
      let st2 := { st1 with messages := storeMessage st1.messages m }
      (st2, ev1 ++ broadcast_message st2 (.message m) none)

/-- `handle_typing_start`: `data.get('username', current)` with no trimming;
rename when it differs, add the name to the typing set, broadcast the typing
update excluding the sender. -/
def handle_typing_start (st : ServerState) (ws : Conn)
    (usernameField : Option String) : ServerState × List Event :=
  match findClient st.clients ws with
  | none => (st, [])
  | some info =>
    let username := usernameField.getD info.username
    let st1 := if username ≠ info.username then
        { st with clients := clientsUpdate st.clients ws username }
      else st
    let st2 := { st1 with typing_users := insert username st1.typing_users }
    (st2, broadcast_typing_update st2 (some ws))

/-- `handle_typing_stop`: discard the current name, broadcast the typing update
excluding the sender. -/
def handle_typing_stop (st : ServerState) (ws : Conn) : ServerState × List Event :=
  match findClient st.clients ws with
  | none => (st, [])
  | some info =>
    let st1 := { st with typing_users := st.typing_users.erase info.username }
    (st1, broadcast_typing_update st1 (some ws))

/-- `handle_username_change`: trim; no-op when empty or identical; otherwise
update the record, swap the name inside the typing set only when the old name
was present, broadcast `username_changed` to everyone, then send the
`username_updated` confirmation to the requester alone. -/
def handle_username_change (st : ServerState) (ws : Conn)
    (usernameField : Option String) (u ts : String) : ServerState × List Event :=
  match findClient st.clients ws with
  | none => (st, [])
  | some info =>
    let newUsername := pyStrip (usernameField.getD "")
    if newUsername = "" ∨ newUsername = info.username then (st, [])
    else
      let st1 := { st with clients := clientsUpdate st.clients ws newUsername }
      let typing2 :=
        if info.username ∈ st1.typing_users then
          insert newUsername (st1.typing_users.erase info.username)
        else st1.typing_users
      let st2 := { st1 with typing_users := typing2 }
      (st2, broadcast_message st2
              (.username_changed u info.username newUsername ts) none
            ++ [Event.send ws (.username_updated newUsername)])

/-- One externally triggered server operation, carrying the uuid and clock
values the corresponding Python code draws. -/
inductive Op where
  | register (ws : Conn) (clientId uJoin tsJoin tsNow : String)
  | msg (ws : Conn) (textField usernameField : Option String) (uChange uMsg ts : String)
  | typingStart (ws : Conn) (usernameField : Option String)
  | typingStop (ws : Conn)
  | usernameChange (ws : Conn) (usernameField : Option String) (u ts : String)
  | disconnect (ws : Conn) (u ts : String)

/-- Dispatch of one operation (registration, the `handle_message` router, or a
disconnect reaching `unregister_client`). -/
def stepOp (st : ServerState) : Op → ServerState × List Event
  | .register ws clientId uJoin tsJoin tsNow =>
      register_client st ws clientId uJoin tsJoin tsNow
  | .msg ws t uf uC uM ts => handle_chat_message st ws t uf uC uM ts
  | .typingStart ws uf => handle_typing_start st ws uf
  | .typingStop ws => handle_typing_stop st ws
  | .usernameChange ws uf u ts => handle_username_change st ws uf u ts
  | .disconnect ws u ts => unregister_client st ws u ts

/-- The state reached after a sequence of operations. -/
def runOps (ops : List Op) (st : ServerState) : ServerState :=
  ops.foldl (fun s o => (stepOp s o).1) st

/-- The TypingSet invariant claimed by the spec: every name in the typing set
is the current `displayName` of at least one registered participant (being in
the composing state is, in this code, exactly membership of one's name in
`typing_users`). -/
def typingNameInv (st : ServerState) : Prop :=
  ∀ n ∈ st.typing_users, ∃ pr ∈ st.clients, pr.2.username = n

/-- The `for websocket, client_info in self.clients.items()` loop of
`broadcast_message`: skip the excluded connection, attempt a send to each
other registered connection, collect the connections whose send raised.
Returns (attempted connections, collected failed connections), both in
iteration order.  `dead c = true` means a send to `c` raises. -/
def broadcastPass (dead : Conn → Bool) :
    List (Conn × ClientInfo) → Option Conn → List Conn × List Conn
  | [], _ => ([], [])
  | (ws, _) :: rest, exclude =>
    if excludedB exclude ws then broadcastPass dead rest exclude
    else
      let r := broadcastPass dead rest exclude
      (ws :: r.1, if dead ws then ws :: r.2 else r.2)

/-- `broadcast_message` with failing connections: the collecting pass, one
delivery event for the connections whose send succeeded, then — only after the
full pass — `unregister_client` folded over the collected failures.  The sends
performed inside those nested unregister calls are modelled as reliable. -/
def broadcast_message_failing (dead : Conn → Bool) (st : ServerState)
    (p : Payload) (exclude : Option Conn) (uuidOf : Conn → String) (ts : String) :
    ServerState × List Event :=
  if st.clients.isEmpty then (st, [])
  else
    let pass := broadcastPass dead st.clients exclude
    pass.2.foldl
      (fun acc ws =>
        let r := unregister_client acc.1 ws (uuidOf ws) ts
        (r.1, acc.2 ++ r.2))
      (st, [Event.broadcast (pass.1.filter (fun c => !dead c)) p])

/-- Concrete records used to instantiate hypotheses of the theorems below. -/
def sampleInfo : ClientInfo :=
  { id := "abcdef", username := "Alice", joined_at := "t0" }

/-- A one-participant state whose participant is composing. -/
def sampleState : ServerState :=
  { clients := [(0, sampleInfo)], messages := [], typing_users := {"Alice"} }

/-- A throwaway stored message. -/
def sampleMsg : ChatMessage :=
  { id := "m0", username := "Alice", text := "hi", timestamp := "t1" }

/-- A second participant record, for multi-client states. -/
def sampleInfoB : ClientInfo :=
  { id := "ghijkl", username := "Bo", joined_at := "t2" }

/-- A two-participant state. -/
def sampleState2 : ServerState :=
  { clients := [(0, sampleInfo), (1, sampleInfoB)], messages := [],
    typing_users := ∅ }

/-- Recognises an event that delivers a `user_left` payload. -/
def isUserLeft : Event → Bool
  | .send _ (.user_left _ _ _) => true
  | .broadcast _ (.user_left _ _ _) => true
  | _ => false

/-- A run reaching a state that violates the spec's TypingSet invariant: one
connection registers (generated name `User_abcdef`), starts typing, then sends
a chat message that inline-renames it to `Bob`.  The chat-message rename path
never touches `typing_users`, so `User_abcdef` stays in the set although no
registered participant carries that name any more. -/
def c1Ops : List Op :=
  [ .register 0 "abcdef-1111" "ju" "tj" "tn"
  , .typingStart 0 none
  , .msg 0 (some "hi") (some "Bob") "u1" "u2" "t2" ]

instance typingNameInvDec (st : ServerState) : Decidable (typingNameInv st) := by
  unfold typingNameInv; infer_instance

theorem findClient_clientsUpdate (l : List (Conn × ClientInfo)) (ws : Conn) (u : String) :
    findClient (clientsUpdate l ws u) ws
      = (findClient l ws).map (fun i => { i with username := u }) := by
  induction l with
  | nil => rfl
  | cons pr rest ih =>
    by_cases h : pr.1 = ws
    · simp [clientsUpdate, findClient, h]
    · simpa [clientsUpdate, findClient, h] using ih

theorem keys_clientsUpdate (l : List (Conn × ClientInfo)) (ws : Conn) (u : String) :
    (clientsUpdate l ws u).map Prod.fst = l.map Prod.fst := by
  induction l with
  | nil => rfl
  | cons pr rest ih =>
    by_cases h : pr.1 = ws <;> simp [clientsUpdate, h] <;>
      simpa [clientsUpdate] using ih

theorem findClient_dictErase (l : List (Conn × ClientInfo)) (ws : Conn) :
    findClient (dictErase l ws) ws = none := by
  induction l with
  | nil => rfl
  | cons pr rest ih =>
    by_cases h : pr.1 = ws
    · simpa [dictErase, h] using ih
    · simpa [dictErase, findClient, h] using ih

theorem isEmpty_false_of_findClient {l : List (Conn × ClientInfo)} {ws : Conn}
    {info : ClientInfo} (h : findClient l ws = some info) : l.isEmpty = false := by
  cases l with
  | nil => simp [findClient] at h
  | cons pr rest => rfl

theorem mem_keys_of_findClient {l : List (Conn × ClientInfo)} {ws : Conn}
    {info : ClientInfo} (h : findClient l ws = some info) :
    ws ∈ l.map Prod.fst := by
  induction l with
  | nil => simp [findClient] at h
  | cons pr rest ih =>
    by_cases hh : pr.1 = ws
    · simp [hh]
    · simp only [findClient, if_neg hh] at h
      simp [ih h]

theorem storeMessage_length_le {msgs : List ChatMessage} (m : ChatMessage)
    (h : msgs.length ≤ 100) : (storeMessage msgs m).length ≤ 100 := by
  simp only [storeMessage]
  by_cases hl : 100 < (msgs ++ [m]).length
  · rw [if_pos hl]
    simp only [List.length_drop, List.length_append, List.length_cons,
      List.length_nil]
    omega
  · rw [if_neg hl]
    simp only [List.length_append, List.length_cons, List.length_nil] at hl ⊢
    omega

theorem foldl_storeMessage (ms : List ChatMessage) :
    List.foldl storeMessage [] ms = ms.drop (ms.length - 100) := by
  induction ms using List.reverseRecOn with
  | nil => rfl
  | append_singleton ms m ih =>
    rw [List.foldl_append, ih, List.foldl_cons, List.foldl_nil]
    simp only [storeMessage]
    by_cases h : 100 ≤ ms.length
    · have h1 : 100 < (ms.drop (ms.length - 100) ++ [m]).length := by
        simp only [List.length_append, List.length_drop, List.length_cons,
          List.length_nil]
        omega
      rw [if_pos h1]
      have h2 : (1 : Nat) ≤ (ms.drop (ms.length - 100)).length := by
        rw [List.length_drop]; omega
      rw [List.drop_append_of_le_length h2, List.drop_drop]
      have h4 : (ms ++ [m]).length - 100 ≤ ms.length := by
        simp only [List.length_append, List.length_cons, List.length_nil]; omega
      rw [List.drop_append_of_le_length h4]
      have h5 : ms.length - 100 + 1 = (ms ++ [m]).length - 100 := by
        simp only [List.length_append, List.length_cons, List.length_nil]; omega
      rw [h5]
    · have h0 : ms.length - 100 = 0 := by omega
      have h1 : ¬ 100 < (ms.drop (ms.length - 100) ++ [m]).length := by
        simp only [List.length_append, List.length_drop, List.length_cons,
          List.length_nil]
        omega
      rw [if_neg h1, h0, List.drop_zero]
      have h2 : (ms ++ [m]).length - 100 = 0 := by
        simp only [List.length_append, List.length_cons, List.length_nil]; omega
      rw [h2, List.drop_zero]

theorem storeMessage_getLastQ (msgs : List ChatMessage) (m : ChatMessage) :
    (storeMessage msgs m).getLast? = some m := by
  simp only [storeMessage]
  by_cases hl : 100 < (msgs ++ [m]).length
  · rw [if_pos hl]
    have hm : msgs ≠ [] := by
      intro h; subst h; simp at hl
    have h1 : (1 : Nat) ≤ msgs.length := by
      cases msgs with
      | nil => exact absurd rfl hm
      | cons a t => simp
    rw [List.drop_append_of_le_length h1, List.getLast?_concat]
  · rw [if_neg hl, List.getLast?_concat]

theorem storeMessage_dropLast_suffix (msgs : List ChatMessage) (m : ChatMessage) :
    (storeMessage msgs m).dropLast <:+ msgs := by
  simp only [storeMessage]
  by_cases hl : 100 < (msgs ++ [m]).length
  · rw [if_pos hl]
    have hm : msgs ≠ [] := by
      intro h; subst h; simp at hl
    have h1 : (1 : Nat) ≤ msgs.length := by
      cases msgs with
      | nil => exact absurd rfl hm
      | cons a t => simp
    rw [List.drop_append_of_le_length h1, List.dropLast_concat]
    exact List.drop_suffix 1 msgs
  · rw [if_neg hl, List.dropLast_concat]

theorem isEmpty_clientsUpdate (l : List (Conn × ClientInfo)) (ws : Conn) (u : String) :
    (clientsUpdate l ws u).isEmpty = l.isEmpty := by
  cases l <;> rfl

theorem recipientsOf_clients_congr {st st' : ServerState} (exclude : Option Conn)
    (h : st.clients.map Prod.fst = st'.clients.map Prod.fst) :
    recipientsOf st exclude = recipientsOf st' exclude := by
  unfold recipientsOf
  rw [h]

theorem recipientsOf_none (st : ServerState) :
    recipientsOf st none = st.clients.map Prod.fst := by
  simp [recipientsOf, excludedB]

/-- Full characterization of `unregister_client` on a registered connection. -/
theorem unregister_spec (st : ServerState) (ws : Conn) (u ts : String)
    (info : ClientInfo) (h : findClient st.clients ws = some info) :
    unregister_client st ws u ts =
      ({ clients := dictErase st.clients ws, messages := st.messages,
         typing_users := st.typing_users.erase info.username },
       [Event.broadcast (recipientsOf st (some ws)) (.user_left u info.username ts),
        Event.broadcast (recipientsOf st (some ws))
          (.typing_update (st.typing_users.erase info.username))]) := by
  have he : st.clients.isEmpty = false := isEmpty_false_of_findClient h
  unfold unregister_client
  rw [h]
  simp only [broadcast_message, broadcast_typing_update, he, Bool.false_eq_true,
    if_false]
  rfl

/-- `handle_username_change` is a complete no-op when the trimmed name is empty
or equals the current one. -/
theorem username_change_noop (st : ServerState) (ws : Conn) (uf : Option String)
    (u ts : String) (info : ClientInfo) (h : findClient st.clients ws = some info)
    (hg : pyStrip (uf.getD "") = "" ∨ pyStrip (uf.getD "") = info.username) :
    handle_username_change st ws uf u ts = (st, []) := by
  unfold handle_username_change
  rw [h]
  simp only [if_pos hg]

/-- Full characterization of a successful `handle_username_change`. -/
theorem username_change_spec (st : ServerState) (ws : Conn) (uf : Option String)
    (u ts : String) (info : ClientInfo) (h : findClient st.clients ws = some info)
    (h1 : pyStrip (uf.getD "") ≠ "") (h2 : pyStrip (uf.getD "") ≠ info.username) :
    handle_username_change st ws uf u ts =
      ({ clients := clientsUpdate st.clients ws (pyStrip (uf.getD "")),
         messages := st.messages,
         typing_users :=
           if info.username ∈ st.typing_users then
             insert (pyStrip (uf.getD "")) (st.typing_users.erase info.username)
           else st.typing_users },
       [Event.broadcast (recipientsOf st none)
          (.username_changed u info.username (pyStrip (uf.getD "")) ts),
        Event.send ws (.username_updated (pyStrip (uf.getD "")))]) := by
  have he : (clientsUpdate st.clients ws (pyStrip (uf.getD ""))).isEmpty = false := by
    rw [isEmpty_clientsUpdate]
    exact isEmpty_false_of_findClient h
  have hg : ¬ (pyStrip (uf.getD "") = "" ∨ pyStrip (uf.getD "") = info.username) := by
    push_neg
    exact ⟨h1, h2⟩
  unfold handle_username_change
  rw [h]
  simp only [if_neg hg, broadcast_message, he, Bool.false_eq_true, if_false]
  refine Prod.ext ?_ ?_
  · rfl
  · show [Event.broadcast
        (recipientsOf { st with clients := clientsUpdate st.clients ws (pyStrip (uf.getD "")) } none) _,
      Event.send ws _] = _
    rw [recipientsOf_clients_congr none (keys_clientsUpdate st.clients ws (pyStrip (uf.getD "")))]

/-- A chat message whose trimmed text is empty is discarded before the
inline-rename block. -/
theorem chat_message_empty_text (st : ServerState) (ws : Conn)
    (textField usernameField : Option String) (uC uM ts : String)
    (info : ClientInfo) (h : findClient st.clients ws = some info)
    (ht : pyStrip (textField.getD "") = "") :
    handle_chat_message st ws textField usernameField uC uM ts = (st, []) := by
  unfold handle_chat_message
  rw [h]
  simp only [if_pos ht]

/-- Full characterization of `handle_chat_message` when the inline rename
fires. -/
theorem chat_message_rename_spec (st : ServerState) (ws : Conn)
    (textField usernameField : Option String) (uC uM ts : String)
    (info : ClientInfo) (h : findClient st.clients ws = some info)
    (ht : pyStrip (textField.getD "") ≠ "")
    (h1 : pyStrip (usernameField.getD "") ≠ "")
    (h2 : pyStrip (usernameField.getD "") ≠ info.username) :
    handle_chat_message st ws textField usernameField uC uM ts =
      ({ clients := clientsUpdate st.clients ws (pyStrip (usernameField.getD "")),
         messages := storeMessage st.messages
           { id := uM, username := pyStrip (usernameField.getD ""),
             text := pyStrip (textField.getD ""), timestamp := ts },
         typing_users := st.typing_users },
       [Event.broadcast (recipientsOf st none)
          (.username_changed uC info.username (pyStrip (usernameField.getD "")) ts),
        Event.broadcast (recipientsOf st none)
          (.message { id := uM, username := pyStrip (usernameField.getD ""),
                      text := pyStrip (textField.getD ""), timestamp := ts })]) := by
  have hc : pyStrip (usernameField.getD "") ≠ "" ∧
      pyStrip (usernameField.getD "") ≠ info.username := ⟨h1, h2⟩
  have he : (clientsUpdate st.clients ws (pyStrip (usernameField.getD ""))).isEmpty
      = false := by
    rw [isEmpty_clientsUpdate]
    exact isEmpty_false_of_findClient h
  unfold handle_chat_message
  rw [h]
  simp only [if_neg ht, if_pos hc, broadcast_message, he, Bool.false_eq_true,
    if_false]
  simp only [recipientsOf, keys_clientsUpdate]
  rfl

/-- Full characterization of `handle_chat_message` when the inline rename does
not fire. -/
theorem chat_message_norename_spec (st : ServerState) (ws : Conn)
    (textField usernameField : Option String) (uC uM ts : String)
    (info : ClientInfo) (h : findClient st.clients ws = some info)
    (ht : pyStrip (textField.getD "") ≠ "")
    (hr : ¬ (pyStrip (usernameField.getD "") ≠ "" ∧
             pyStrip (usernameField.getD "") ≠ info.username)) :
    handle_chat_message st ws textField usernameField uC uM ts =
      ({ clients := st.clients,
         messages := storeMessage st.messages
           { id := uM, username := info.username,
             text := pyStrip (textField.getD ""), timestamp := ts },
         typing_users := st.typing_users },
       [Event.broadcast (recipientsOf st none)
          (.message { id := uM, username := info.username,
                      text := pyStrip (textField.getD ""), timestamp := ts })]) := by
  have he : st.clients.isEmpty = false := isEmpty_false_of_findClient h
  unfold handle_chat_message
  rw [h]
  simp only [if_neg ht, if_neg hr, broadcast_message, he, Bool.false_eq_true,
    if_false]
  rfl

/-- `unregister_client` is a no-op on an unregistered connection. -/
theorem unregister_noop (st : ServerState) (ws : Conn) (u ts : String)
    (h : findClient st.clients ws = none) : unregister_client st ws u ts = (st, []) := by
  unfold unregister_client
  rw [h]

/-- The attempted-delivery list of the broadcast pass: every registered,
non-excluded connection, in iteration order — independent of which sends
fail. -/
theorem broadcastPass_fst (dead : Conn → Bool) (l : List (Conn × ClientInfo))
    (exclude : Option Conn) :
    (broadcastPass dead l exclude).1
      = (l.map Prod.fst).filter (fun c => !excludedB exclude c) := by
  induction l with
  | nil => rfl
  | cons pr rest ih =>
    obtain ⟨w, i⟩ := pr
    cases h : excludedB exclude w <;> simp [broadcastPass, h, ih]

/-- The collected-failure list of the broadcast pass: exactly the dead among
the attempted connections, in iteration order. -/
theorem broadcastPass_snd (dead : Conn → Bool) (l : List (Conn × ClientInfo))
    (exclude : Option Conn) :
    (broadcastPass dead l exclude).2
      = ((l.map Prod.fst).filter (fun c => !excludedB exclude c)).filter dead := by
  induction l with
  | nil => rfl
  | cons pr rest ih =>
    obtain ⟨w, i⟩ := pr
    cases h : excludedB exclude w
    · cases hd : dead w <;> simp [broadcastPass, h, hd, ih]
    · simp [broadcastPass, h, ih]

/-- C1 (counterexample): the claimed TypingSet invariant — every name in the
set is the current displayName of a registered composing participant — is
violated by a reachable state: after `c1Ops` (register, typing_start, then a
chat message carrying an inline rename) the set still holds the old generated
name while the only participant is called `Bob`. -/
theorem c1_counterexample : ¬ typingNameInv (runOps c1Ops initialState) := by
  decide

/-- C1 (amended): unregistering a participant and an (effective)
`username_change` do remove the participant's old name from the TypingSet;
the chat-message inline rename and the typing_start rename do not (see the
counterexample), so a name in the set need not match any registered
participant's current displayName. -/
theorem c1_theorem (st : ServerState) (ws : Conn) (info : ClientInfo)
    (h : findClient st.clients ws = some info) :
    (∀ u ts, info.username ∉ (unregister_client st ws u ts).1.typing_users) ∧
    (∀ uf u ts, pyStrip (uf.getD "") ≠ "" → pyStrip (uf.getD "") ≠ info.username →
      info.username ∉ (handle_username_change st ws uf u ts).1.typing_users) := by
  constructor
  · intro u ts
    rw [unregister_spec st ws u ts info h]
    exact Finset.not_mem_erase _ _
  · intro uf u ts h1 h2
    rw [username_change_spec st ws uf u ts info h h1 h2]
    by_cases hm : info.username ∈ st.typing_users
    · show info.username ∉ (if info.username ∈ st.typing_users then _ else _)
      rw [if_pos hm]
      intro hcon
      rcases Finset.mem_insert.mp hcon with he | he
      · exact h2 he.symm
      · exact (Finset.mem_erase.mp he).1 rfl
    · show info.username ∉ (if info.username ∈ st.typing_users then _ else _)
      rw [if_neg hm]
      exact hm

/-- C1 (witness): the amended claim evaluated on the sample state. -/
theorem c1_witness :
    sampleInfo.username ∉ (unregister_client sampleState 0 "u1" "t1").1.typing_users ∧
    sampleInfo.username ∉
      (handle_username_change sampleState 0 (some "Bob") "u2" "t2").1.typing_users :=
  ⟨(c1_theorem sampleState 0 sampleInfo rfl).1 "u1" "t1",
   (c1_theorem sampleState 0 sampleInfo rfl).2 (some "Bob") "u2" "t2"
     (by decide) (by decide)⟩

/-- C2: every chat-message invocation keeps the history at or below 100
entries, and folding the store step over 101 messages yields exactly messages
2 through 101 in their original order (the first is evicted). -/
theorem c2_theorem :
    (∀ (st : ServerState) (ws : Conn) (t uf : Option String) (uC uM ts : String),
      st.messages.length ≤ 100 →
      (handle_chat_message st ws t uf uC uM ts).1.messages.length ≤ 100) ∧
    (∀ ms : List ChatMessage,
      (List.foldl storeMessage [] ms).length ≤ 100 ∧
      (ms.length = 101 → List.foldl storeMessage [] ms = ms.drop 1)) := by
  constructor
  · intro st ws t uf uC uM ts hlen
    cases hf : findClient st.clients ws with
    | none =>
      have heq : handle_chat_message st ws t uf uC uM ts = (st, []) := by
        unfold handle_chat_message
        rw [hf]
      rw [heq]
      exact hlen
    | some info =>
      by_cases ht : pyStrip (t.getD "") = ""
      · rw [chat_message_empty_text st ws t uf uC uM ts info hf ht]
        exact hlen
      · by_cases hr : pyStrip (uf.getD "") ≠ "" ∧ pyStrip (uf.getD "") ≠ info.username
        · rw [chat_message_rename_spec st ws t uf uC uM ts info hf ht hr.1 hr.2]
          exact storeMessage_length_le _ hlen
        · rw [chat_message_norename_spec st ws t uf uC uM ts info hf ht hr]
          exact storeMessage_length_le _ hlen
  · intro ms
    constructor
    · rw [foldl_storeMessage, List.length_drop]
      omega
    · intro h101
      rw [foldl_storeMessage, h101]

/-- C2 (witness): the bound and the eviction shape on concrete inputs. -/
theorem c2_witness :
    (handle_chat_message sampleState 0 (some "hi") none "u1" "u2" "t2").1.messages.length
        ≤ 100 ∧
    List.foldl storeMessage [] (List.replicate 101 sampleMsg)
        = (List.replicate 101 sampleMsg).drop 1 :=
  ⟨c2_theorem.1 sampleState 0 (some "hi") none "u1" "u2" "t2" (by decide),
   (c2_theorem.2 (List.replicate 101 sampleMsg)).2 (by simp)⟩

/-- C4: unregistering a connection that is not registered changes nothing and
emits nothing; hence unregistering the same connection twice delivers exactly
one `user_left` payload. -/
theorem c4_theorem (st : ServerState) (ws : Conn) (u1 t1 u2 t2 : String) :
    (findClient st.clients ws = none → unregister_client st ws u1 t1 = (st, [])) ∧
    (∀ info, findClient st.clients ws = some info →
      (((unregister_client st ws u1 t1).2 ++
        (unregister_client (unregister_client st ws u1 t1).1 ws u2 t2).2).filter
          isUserLeft).length = 1) := by
  constructor
  · intro h
    exact unregister_noop st ws u1 t1 h
  · intro info h
    rw [unregister_spec st ws u1 t1 info h]
    rw [unregister_noop _ ws u2 t2 (findClient_dictErase st.clients ws)]
    simp [isUserLeft]

/-- C4 (witness): both branches on concrete states — the empty registry and
the sample registry. -/
theorem c4_witness :
    unregister_client initialState 0 "u1" "t1" = (initialState, []) ∧
    (((unregister_client sampleState 0 "u1" "t1").2 ++
      (unregister_client (unregister_client sampleState 0 "u1" "t1").1 0 "u2" "t2").2).filter
        isUserLeft).length = 1 :=
  ⟨(c4_theorem initialState 0 "u1" "t1" "u2" "t2").1 rfl,
   (c4_theorem sampleState 0 "u1" "t1" "u2" "t2").2 sampleInfo rfl⟩

/-- C7: on a registered connection, unregistering erases the display name from
the typing set, then broadcasts `user_left` and the updated typing list (both
computed from the still-registered participant's identity and both excluding
the departing connection), and the registry entry is removed only in the final
state. -/
theorem c7_theorem (st : ServerState) (ws : Conn) (u ts : String)
    (info : ClientInfo) (h : findClient st.clients ws = some info) :
    unregister_client st ws u ts =
      ({ clients := dictErase st.clients ws, messages := st.messages,
         typing_users := st.typing_users.erase info.username },
       [Event.broadcast (recipientsOf st (some ws)) (.user_left u info.username ts),
        Event.broadcast (recipientsOf st (some ws))
          (.typing_update (st.typing_users.erase info.username))]) :=
  unregister_spec st ws u ts info h

/-- C7 (witness): the unregister characterization on the sample state. -/
theorem c7_witness :
    unregister_client sampleState 0 "u1" "t1" =
      ({ clients := dictErase sampleState.clients 0, messages := sampleState.messages,
         typing_users := sampleState.typing_users.erase sampleInfo.username },
       [Event.broadcast (recipientsOf sampleState (some 0))
          (.user_left "u1" sampleInfo.username "t1"),
        Event.broadcast (recipientsOf sampleState (some 0))
          (.typing_update (sampleState.typing_users.erase sampleInfo.username))]) :=
  c7_theorem sampleState 0 "u1" "t1" sampleInfo rfl

/-- C8: a message payload whose text trims to empty is discarded silently:
no state change and no event, whatever the `username` field carries. -/
theorem c8_theorem (st : ServerState) (ws : Conn)
    (textField usernameField : Option String) (uC uM ts : String)
    (info : ClientInfo) (h : findClient st.clients ws = some info)
    (ht : pyStrip (textField.getD "") = "") :
    handle_chat_message st ws textField usernameField uC uM ts = (st, []) :=
  chat_message_empty_text st ws textField usernameField uC uM ts info h ht

/-- C8 (witness): a whitespace-only text with a rename-carrying username field
leaves the sample state untouched and emits nothing. -/
theorem c8_witness :
    handle_chat_message sampleState 0 (some "   ") (some "Bob") "u1" "u2" "t2"
      = (sampleState, []) :=
  c8_theorem sampleState 0 (some "   ") (some "Bob") "u1" "u2" "t2" sampleInfo
    rfl (by decide)

/-- C3: during a broadcast over the registered connections, the attempted
deliveries are exactly the non-excluded registered connections whatever the
set of dead connections (one failure never prevents the remaining attempts);
the failed connections are collected during the pass, and the whole call
equals that pass followed — only afterwards — by folding the Session Registry
`unregister_client` path over the collected failures. -/
theorem c3_theorem (dead : Conn → Bool) (st : ServerState) (p : Payload)
    (exclude : Option Conn) (uuidOf : Conn → String) (ts : String) :
    (broadcastPass dead st.clients exclude).1
        = (st.clients.map Prod.fst).filter (fun c => !excludedB exclude c) ∧
    (broadcastPass dead st.clients exclude).2
        = ((st.clients.map Prod.fst).filter (fun c => !excludedB exclude c)).filter
            dead ∧
    (st.clients.isEmpty = false →
      broadcast_message_failing dead st p exclude uuidOf ts =
        (broadcastPass dead st.clients exclude).2.foldl
          (fun acc ws =>
            ((unregister_client acc.1 ws (uuidOf ws) ts).1,
             acc.2 ++ (unregister_client acc.1 ws (uuidOf ws) ts).2))
          (st, [Event.broadcast
            ((broadcastPass dead st.clients exclude).1.filter (fun c => !dead c))
            p])) := by
  refine ⟨broadcastPass_fst dead st.clients exclude,
          broadcastPass_snd dead st.clients exclude, ?_⟩
  intro he
  unfold broadcast_message_failing
  rw [if_neg (by simp [he])]

/-- C3 (witness): the pass structure evaluated on a two-client state in which
the second connection is dead. -/
theorem c3_witness :
    (broadcastPass (fun c => c == 1) sampleState2.clients none).1
        = (sampleState2.clients.map Prod.fst).filter
            (fun c => !excludedB none c) ∧
    (broadcastPass (fun c => c == 1) sampleState2.clients none).2
        = ((sampleState2.clients.map Prod.fst).filter
            (fun c => !excludedB none c)).filter (fun c => c == 1) ∧
    broadcast_message_failing (fun c => c == 1) sampleState2
        (.typing_update ∅) none (fun _ => "u") "t" =
      (broadcastPass (fun c => c == 1) sampleState2.clients none).2.foldl
        (fun acc ws =>
          ((unregister_client acc.1 ws ((fun _ => "u") ws) "t").1,
           acc.2 ++ (unregister_client acc.1 ws ((fun _ => "u") ws) "t").2))
        (sampleState2, [Event.broadcast
          ((broadcastPass (fun c => c == 1) sampleState2.clients none).1.filter
            (fun c => !(c == 1)))
          (.typing_update ∅)]) :=
  ⟨(c3_theorem (fun c => c == 1) sampleState2 (.typing_update ∅) none
      (fun _ => "u") "t").1,
   (c3_theorem (fun c => c == 1) sampleState2 (.typing_update ∅) none
      (fun _ => "u") "t").2.1,
   (c3_theorem (fun c => c == 1) sampleState2 (.typing_update ∅) none
      (fun _ => "u") "t").2.2 rfl⟩

/-- C5: an explicit rename request whose trimmed name is empty or unchanged is
a complete no-op; otherwise the registry record is updated, the typing set
swaps the old name for the new one only when the old name was present, a
`username_changed` event goes to every participant (the sender included), and
the `username_updated` confirmation goes to the requesting connection alone. -/
theorem c5_theorem (st : ServerState) (ws : Conn) (uf : Option String)
    (u ts : String) (info : ClientInfo) (h : findClient st.clients ws = some info) :
    (pyStrip (uf.getD "") = "" ∨ pyStrip (uf.getD "") = info.username →
      handle_username_change st ws uf u ts = (st, [])) ∧
    (pyStrip (uf.getD "") ≠ "" → pyStrip (uf.getD "") ≠ info.username →
      handle_username_change st ws uf u ts =
        ({ clients := clientsUpdate st.clients ws (pyStrip (uf.getD "")),
           messages := st.messages,
           typing_users :=
             if info.username ∈ st.typing_users then
               insert (pyStrip (uf.getD "")) (st.typing_users.erase info.username)
             else st.typing_users },
         [Event.broadcast (recipientsOf st none)
            (.username_changed u info.username (pyStrip (uf.getD "")) ts),
          Event.send ws (.username_updated (pyStrip (uf.getD "")))]) ∧
      ws ∈ recipientsOf st none) := by
  refine ⟨fun hg => username_change_noop st ws uf u ts info h hg,
          fun h1 h2 => ⟨username_change_spec st ws uf u ts info h h1 h2, ?_⟩⟩
  rw [recipientsOf_none]
  exact mem_keys_of_findClient h

/-- C5 (witness): the no-op branch (name trimming to the current one) and the
successful branch on the sample state. -/
theorem c5_witness :
    handle_username_change sampleState 0 (some " Alice ") "u1" "t1"
        = (sampleState, []) ∧
    handle_username_change sampleState 0 (some "Bob") "u1" "t1" =
      ({ clients := clientsUpdate sampleState.clients 0 (pyStrip ((some "Bob").getD "")),
         messages := sampleState.messages,
         typing_users :=
           if sampleInfo.username ∈ sampleState.typing_users then
             insert (pyStrip ((some "Bob").getD ""))
               (sampleState.typing_users.erase sampleInfo.username)
           else sampleState.typing_users },
       [Event.broadcast (recipientsOf sampleState none)
          (.username_changed "u1" sampleInfo.username (pyStrip ((some "Bob").getD "")) "t1"),
        Event.send 0 (.username_updated (pyStrip ((some "Bob").getD "")))]) ∧
      0 ∈ recipientsOf sampleState none :=
  ⟨(c5_theorem sampleState 0 (some " Alice ") "u1" "t1" sampleInfo rfl).1
      (Or.inr (by decide)),
   (c5_theorem sampleState 0 (some "Bob") "u1" "t1" sampleInfo rfl).2
      (by decide) (by decide)⟩

/-- C6: with non-empty trimmed text, the inline rename (registry update plus a
`username_changed` broadcast to everyone, the sender included) happens exactly
when the trimmed username field is non-empty and differs from the current
name, and the stored and broadcast message is authored with the
possibly-just-updated name. -/
theorem c6_theorem (st : ServerState) (ws : Conn)
    (textField usernameField : Option String) (uC uM ts : String)
    (info : ClientInfo) (h : findClient st.clients ws = some info)
    (ht : pyStrip (textField.getD "") ≠ "") :
    (pyStrip (usernameField.getD "") ≠ "" →
     pyStrip (usernameField.getD "") ≠ info.username →
      handle_chat_message st ws textField usernameField uC uM ts =
        ({ clients := clientsUpdate st.clients ws (pyStrip (usernameField.getD "")),
           messages := storeMessage st.messages
             { id := uM, username := pyStrip (usernameField.getD ""),
               text := pyStrip (textField.getD ""), timestamp := ts },
           typing_users := st.typing_users },
         [Event.broadcast (recipientsOf st none)
            (.username_changed uC info.username (pyStrip (usernameField.getD "")) ts),
          Event.broadcast (recipientsOf st none)
            (.message { id := uM, username := pyStrip (usernameField.getD ""),
                        text := pyStrip (textField.getD ""), timestamp := ts })]) ∧
      ws ∈ recipientsOf st none) ∧
    (¬ (pyStrip (usernameField.getD "") ≠ "" ∧
        pyStrip (usernameField.getD "") ≠ info.username) →
      handle_chat_message st ws textField usernameField uC uM ts =
        ({ clients := st.clients,
           messages := storeMessage st.messages
             { id := uM, username := info.username,
               text := pyStrip (textField.getD ""), timestamp := ts },
           typing_users := st.typing_users },
         [Event.broadcast (recipientsOf st none)
            (.message { id := uM, username := info.username,
                        text := pyStrip (textField.getD ""), timestamp := ts })])) := by
  refine ⟨fun h1 h2 =>
      ⟨chat_message_rename_spec st ws textField usernameField uC uM ts info h ht h1 h2,
       ?_⟩,
    fun hr => chat_message_norename_spec st ws textField usernameField uC uM ts
      info h ht hr⟩
  rw [recipientsOf_none]
  exact mem_keys_of_findClient h

/-- C6 (witness): both branches on the sample state — a message with a rename
and a message without a username field. -/
theorem c6_witness :
    handle_chat_message sampleState 0 (some "hi") (some "Bob") "u1" "u2" "t2" =
      ({ clients := clientsUpdate sampleState.clients 0 (pyStrip ((some "Bob").getD "")),
         messages := storeMessage sampleState.messages
           { id := "u2", username := pyStrip ((some "Bob").getD ""),
             text := pyStrip ((some "hi").getD ""), timestamp := "t2" },
         typing_users := sampleState.typing_users },
       [Event.broadcast (recipientsOf sampleState none)
          (.username_changed "u1" sampleInfo.username (pyStrip ((some "Bob").getD "")) "t2"),
        Event.broadcast (recipientsOf sampleState none)
          (.message { id := "u2", username := pyStrip ((some "Bob").getD ""),
                      text := pyStrip ((some "hi").getD ""), timestamp := "t2" })]) ∧
    0 ∈ recipientsOf sampleState none ∧
    handle_chat_message sampleState 0 (some "hi") none "u1" "u2" "t2" =
      ({ clients := sampleState.clients,
         messages := storeMessage sampleState.messages
           { id := "u2", username := sampleInfo.username,
             text := pyStrip ((some "hi").getD ""), timestamp := "t2" },
         typing_users := sampleState.typing_users },
       [Event.broadcast (recipientsOf sampleState none)
          (.message { id := "u2", username := sampleInfo.username,
                      text := pyStrip ((some "hi").getD ""), timestamp := "t2" })]) :=
  ⟨((c6_theorem sampleState 0 (some "hi") (some "Bob") "u1" "u2" "t2" sampleInfo
      rfl (by decide)).1 (by decide) (by decide)).1,
   ((c6_theorem sampleState 0 (some "hi") (some "Bob") "u1" "u2" "t2" sampleInfo
      rfl (by decide)).1 (by decide) (by decide)).2,
   (c6_theorem sampleState 0 (some "hi") none "u1" "u2" "t2" sampleInfo
      rfl (by decide)).2 (by decide)⟩

/-- C9: an explicit rename never touches the stored history; a chat message
leaves every previously stored record unchanged (the new buffer minus its last
element is a suffix of the old buffer) and appends one record authored with
the name current after any inline rename. -/
theorem c9_theorem (st : ServerState) (ws : Conn) :
    (∀ (uf : Option String) (u ts : String),
      (handle_username_change st ws uf u ts).1.messages = st.messages) ∧
    (∀ (textField usernameField : Option String) (uC uM ts : String)
        (info : ClientInfo),
      findClient st.clients ws = some info →
      pyStrip (textField.getD "") ≠ "" →
      (handle_chat_message st ws textField usernameField uC uM ts).1.messages.dropLast
          <:+ st.messages ∧
      (handle_chat_message st ws textField usernameField uC uM ts).1.messages.getLast?
        = some { id := uM,
                 username :=
                   if pyStrip (usernameField.getD "") ≠ "" ∧
                      pyStrip (usernameField.getD "") ≠ info.username then
                     pyStrip (usernameField.getD "")
                   else info.username,
                 text := pyStrip (textField.getD ""), timestamp := ts }) := by
  constructor
  · intro uf u ts
    cases hf : findClient st.clients ws with
    | none =>
      have heq : handle_username_change st ws uf u ts = (st, []) := by
        unfold handle_username_change
        rw [hf]
      rw [heq]
    | some info =>
      by_cases hg : pyStrip (uf.getD "") = "" ∨ pyStrip (uf.getD "") = info.username
      · rw [username_change_noop st ws uf u ts info hf hg]
      · push_neg at hg
        rw [username_change_spec st ws uf u ts info hf hg.1 hg.2]
  · intro t uf uC uM ts info hf ht
    by_cases hr : pyStrip (uf.getD "") ≠ "" ∧ pyStrip (uf.getD "") ≠ info.username
    · rw [chat_message_rename_spec st ws t uf uC uM ts info hf ht hr.1 hr.2,
        if_pos hr]
      exact ⟨storeMessage_dropLast_suffix _ _, storeMessage_getLastQ _ _⟩
    · rw [chat_message_norename_spec st ws t uf uC uM ts info hf ht hr, if_neg hr]
      exact ⟨storeMessage_dropLast_suffix _ _, storeMessage_getLastQ _ _⟩

/-- C9 (witness): the frame condition evaluated on the sample state for a
renaming chat message. -/
theorem c9_witness :
    (handle_username_change sampleState 0 (some "Bob") "u1" "t1").1.messages
        = sampleState.messages ∧
    (handle_chat_message sampleState 0 (some "hi") (some "Bob") "u1" "u2" "t2").1.messages.dropLast
        <:+ sampleState.messages ∧
    (handle_chat_message sampleState 0 (some "hi") (some "Bob") "u1" "u2" "t2").1.messages.getLast?
      = some { id := "u2",
               username :=
                 if pyStrip ((some "Bob").getD "") ≠ "" ∧
                    pyStrip ((some "Bob").getD "") ≠ sampleInfo.username then
                   pyStrip ((some "Bob").getD "")
                 else sampleInfo.username,
               text := pyStrip ((some "hi").getD ""), timestamp := "t2" } :=
  ⟨(c9_theorem sampleState 0).1 (some "Bob") "u1" "t1",
   ((c9_theorem sampleState 0).2 (some "hi") (some "Bob") "u1" "u2" "t2"
      sampleInfo rfl (by decide)).1,
   ((c9_theorem sampleState 0).2 (some "hi") (some "Bob") "u1" "u2" "t2"
      sampleInfo rfl (by decide)).2⟩

/-- Full characterization of `handle_typing_start` when the effective name
differs from the stored one (the typing-start rename path). -/
theorem typing_start_rename_spec (st : ServerState) (ws : Conn)
    (uf : Option String) (info : ClientInfo)
    (h : findClient st.clients ws = some info)
    (hn : uf.getD info.username ≠ info.username) :
    handle_typing_start st ws uf =
      ({ clients := clientsUpdate st.clients ws (uf.getD info.username),
         messages := st.messages,
         typing_users := insert (uf.getD info.username) st.typing_users },
       [Event.broadcast (recipientsOf st (some ws))
          (.typing_update (insert (uf.getD info.username) st.typing_users))]) := by
  have he : (clientsUpdate st.clients ws (uf.getD info.username)).isEmpty = false := by
    rw [isEmpty_clientsUpdate]
    exact isEmpty_false_of_findClient h
  unfold handle_typing_start
  rw [h]
  simp only [if_pos hn, broadcast_typing_update, broadcast_message, he,
    Bool.false_eq_true, if_false]
  simp only [recipientsOf, keys_clientsUpdate]

/-- Full characterization of `handle_typing_start` when the effective name
equals the stored one. -/
theorem typing_start_norename_spec (st : ServerState) (ws : Conn)
    (uf : Option String) (info : ClientInfo)
    (h : findClient st.clients ws = some info)
    (hn : uf.getD info.username = info.username) :
    handle_typing_start st ws uf =
      ({ clients := st.clients, messages := st.messages,
         typing_users := insert (uf.getD info.username) st.typing_users },
       [Event.broadcast (recipientsOf st (some ws))
          (.typing_update (insert (uf.getD info.username) st.typing_users))]) := by
  have he : st.clients.isEmpty = false := isEmpty_false_of_findClient h
  unfold handle_typing_start
  rw [h]
  simp only [if_neg (fun hc => hc hn : ¬ uf.getD info.username ≠ info.username),
    broadcast_typing_update, broadcast_message, he, Bool.false_eq_true, if_false]
  rfl

/-- C10: a `typing_start` whose username field is the empty string renames the
registered participant to the empty string and puts the empty string into the
typing set — no trimming and no non-emptiness check happens on this path. -/
theorem c10_theorem (st : ServerState) (ws : Conn) (info : ClientInfo)
    (h : findClient st.clients ws = some info) :
    (handle_typing_start st ws (some "")).1.typing_users
        = insert "" st.typing_users ∧
    findClient (handle_typing_start st ws (some "")).1.clients ws
        = some { info with username := "" } ∧
    (handle_typing_start st ws (some "")).1.messages = st.messages ∧
    (handle_typing_start st ws (some "")).2 =
      [Event.broadcast (recipientsOf st (some ws))
        (.typing_update (insert "" st.typing_users))] := by
  by_cases hn : ("" : String) = info.username
  · rw [typing_start_norename_spec st ws (some "") info h hn]
    refine ⟨rfl, ?_, rfl, rfl⟩
    show findClient st.clients ws = some { info with username := "" }
    rw [h]
    obtain ⟨i, un, j⟩ := info
    subst hn
    rfl
  · rw [typing_start_rename_spec st ws (some "") info h hn]
    refine ⟨rfl, ?_, rfl, rfl⟩
    show findClient (clientsUpdate st.clients ws "") ws
        = some { info with username := "" }
    rw [findClient_clientsUpdate, h]
    rfl

/-- C10 (witness): the empty-string rename on the sample state. -/
theorem c10_witness :
    (handle_typing_start sampleState 0 (some "")).1.typing_users
        = insert "" sampleState.typing_users ∧
    findClient (handle_typing_start sampleState 0 (some "")).1.clients 0
        = some { sampleInfo with username := "" } ∧
    (handle_typing_start sampleState 0 (some "")).1.messages
        = sampleState.messages ∧
    (handle_typing_start sampleState 0 (some "")).2 =
      [Event.broadcast (recipientsOf sampleState (some 0))
        (.typing_update (insert "" sampleState.typing_users))] :=
  c10_theorem sampleState 0 sampleInfo rfl

end Messenger
